import Mathlib

/-
Verification development for the agoraX_resume audio service.

The development shallowly embeds the pieces of the service that the
checked properties talk about:

  * the transcript normalizer of the finalize route
    (src/audio.ts, lines 179-212): splitting on line breaks, JS trim,
    the two name regexes, the header regex and the unknown-speaker
    rewrite;
  * the email-extraction regex and insertion-order deduplication of the
    finalize delivery fallback (src/audio.ts, lines 356-358);
  * transcript aggregation across candidate storage roots
    (src/audio.ts, lines 122-166);
  * the delivery / cleanup phase of the finalize route
    (src/audio.ts, lines 302-404);
  * the transcribeBuffer retry protocol (services/transcribe.ts,
    lines 12-148);
  * the transcribe-chunk route (src/audio.ts, lines 12-110).

External collaborators (the speech-to-text provider, the summarizer,
the mailer and the file system) are modelled as environment inputs:
their responses are parameters, and file-system effects are recorded
as explicit action lists.  Regex matching is implemented directly,
following the backtracking behaviour of the JS engine on the concrete
patterns appearing in the source.
-/

/-- JS whitespace, as used by String.prototype.trim and by the regex
class for spaces in the patterns of the normalizer. -/
def isJsSpace (c : Char) : Bool :=
  c = ' ' || c = '\t' || c = '\n' || c = '\r' || c = '\x0b' || c = '\x0c' || c = ' '

/-- Characters admitted by the name capture class of the normalizer
regexes: word characters, hyphen, dot and whitespace. -/
def isNameChar (c : Char) : Bool :=
  (('A' ≤ c && c ≤ 'Z') || ('a' ≤ c && c ≤ 'z') || ('0' ≤ c && c ≤ '9')
    || c = '_' || c = '-' || c = '.' || isJsSpace c)

/-- Separator characters accepted between name and message: colon,
fullwidth colon and hyphen. -/
def isSepChar (c : Char) : Bool :=
  c = ':' || c = '：' || c = '-'

/-- Characters matched by the dot of the trailing capture: anything but
a line terminator. -/
def isDotChar (c : Char) : Bool :=
  !(c = '\n' || c = '\r')

/-- Case-insensitive comparison of a character against a lowercase
target, mirroring the i flag of the source regexes. -/
def lowEq (c d : Char) : Bool :=
  c.toLower = d

/-- JS String.prototype.trim on a character list. -/
def trimChars (l : List Char) : List Char :=
  ((l.dropWhile isJsSpace).reverse.dropWhile isJsSpace).reverse

/-- Splitting on the separator regex of the source, which cuts at a
newline optionally preceded by a carriage return. -/
def splitLines : List Char → List (List Char)
  | [] => [[]]
  | '\n' :: rest => [] :: splitLines rest
  | '\r' :: '\n' :: rest => [] :: splitLines rest
  | c :: rest =>
    match splitLines rest with
    | [] => [[c]]
    | l :: ls => (c :: l) :: ls

/-- Insertion-order deduplication, the observable behaviour of feeding
values into a JS Set and converting back to an array. -/
def dedupFirst {α : Type} [DecidableEq α] (l : List α) : List α :=
  l.foldl (fun acc a => if a ∈ acc then acc else acc ++ [a]) []

/-- Test for the literal chat marker at the head of the input,
case-insensitively, as the i flag of the source regexes demands. -/
def isChatAt (l : List Char) : Bool :=
  match l with
  | c1 :: l1 => lowEq c1 '(' &&
      (match l1 with
       | c2 :: l2 => lowEq c2 'c' &&
         (match l2 with
          | c3 :: l3 => lowEq c3 'h' &&
            (match l3 with
             | c4 :: l4 => lowEq c4 'a' &&
               (match l4 with
                | c5 :: l5 => lowEq c5 't' &&
                  (match l5 with
                   | c6 :: _ => lowEq c6 ')'
                   | [] => false)
                | [] => false)
             | [] => false)
          | [] => false)
       | [] => false)
  | [] => false

/-- Whether the chat marker occurs anywhere in the input. -/
def hasChatMarker : List Char → Bool
  | [] => false
  | c :: rest => isChatAt (c :: rest) || hasChatMarker rest

/-- Backtracking search for the name capture at the current position:
the greedy quantifier tries the longest admissible capture first and
shortens on failure, exactly as the JS engine does.  Returns the raw
captured name and the trailing message capture. -/
def tryNameK : Nat → List Char → Option (List Char × List Char)
  | 0, _ => none
  | k + 1, cs =>
    let name := cs.take (k + 1)
    let rest := (cs.drop (k + 1)).dropWhile isJsSpace
    match rest with
    | c :: r2 =>
      if isSepChar c then
        let msg := r2.dropWhile isJsSpace
        if !msg.isEmpty && msg.all isDotChar then some (name, msg)
        else tryNameK k cs
      else tryNameK k cs
    | [] => tryNameK k cs

/-- Anchored match of the capture part of the name regex, starting the
greedy capture at its maximal admissible length, which is bounded by 60
and by the run of name-class characters. -/
def tryNameFrom (cs : List Char) : Option (List Char × List Char) :=
  tryNameK (min 60 (cs.takeWhile isNameChar).length) cs

/-- Backtracking over the greedy whitespace run that follows the chat
marker inside the optional group: longest first, then shorter. -/
def tryNameJ : Nat → List Char → Option (List Char × List Char)
  | 0, cs => tryNameFrom cs
  | j + 1, cs =>
    match tryNameFrom (cs.drop (j + 1)) with
    | some r => some r
    | none => tryNameJ j cs

/-- Match of the part of the patterns that follows a consumed chat
marker. -/
def tryChatTail (cs : List Char) : Option (List Char × List Char) :=
  tryNameJ (cs.takeWhile isJsSpace).length cs

/-- The anchored name regex of the normalizer.  When the optional chat
marker is present it is consumed greedily; when it is absent the
capture starts at the first character.  A present marker that cannot be
followed by a name capture kills the match, because the opening
parenthesis is not a name-class character. -/
def nameMatch (cs : List Char) : Option (List Char × List Char) :=
  if isChatAt cs then tryChatTail (cs.drop 6) else tryNameFrom cs

/-- The looser, unanchored secondary pattern: scan the line left to
right for a chat marker followed by a name capture. -/
def chatLooseSearch : List Char → Option (List Char × List Char)
  | [] => none
  | c :: rest =>
    if isChatAt (c :: rest) then
      match tryChatTail ((c :: rest).drop 6) with
      | some r => some r
      | none => chatLooseSearch rest
    else chatLooseSearch rest

/-- The header regex of the normalizer: three hyphens, optional
whitespace, then the transcript file stem. -/
def headerTest (l : List Char) : Bool :=
  match l with
  | c1 :: l1 => (c1 = '-') &&
      (match l1 with
       | c2 :: l2 => (c2 = '-') &&
         (match l2 with
          | c3 :: l3 => (c3 = '-') &&
              List.isPrefixOf (String.toList "transcript-") (l3.dropWhile isJsSpace)
          | [] => false)
       | [] => false)
  | [] => false

/-- Marker the normalizer writes in front of unattributed lines. -/
def unknownPref : List Char :=
  String.toList "[Desconocido]: "

/-- Per-line step of the normalizer: headers pass through, matched
lines are rewritten to a trimmed name-message pair while the trimmed
name is recorded, and everything else becomes an unknown-speaker
line. -/
def normLine (l : List Char) : List Char × Option (List Char) :=
  if headerTest l then (l, none)
  else
    match nameMatch l with
    | some (n, m) => (trimChars n ++ (':' :: ' ' :: trimChars m), some (trimChars n))
    | none =>
      match chatLooseSearch l with
      | some (n, m) => (trimChars n ++ (':' :: ' ' :: trimChars m), some (trimChars n))
      | none => (unknownPref ++ l, none)

/-- The transcript normalizer of the finalize route: split into
non-empty trimmed lines, rewrite each line, join with newlines, and
collect the distinct recorded names in insertion order. -/
def normalizeChars (cs : List Char) : List Char × List (List Char) :=
  let rawLines := ((splitLines cs).map trimChars).filter (fun l => !l.isEmpty)
  (List.intercalate ['\n'] (rawLines.map (fun l => (normLine l).1)),
   dedupFirst (rawLines.filterMap (fun l => (normLine l).2)))

/-- String-level wrapper of the normalizer. -/
def normalizeText (s : String) : String × List String :=
  let r := normalizeChars s.toList
  (String.mk r.1, r.2.map String.mk)

/-- Guard of the normalization step: the whole transform runs inside a
try block, and any failure of the transform falls back to the raw text
with an empty participant set. -/
def normalizeGuarded (core : List Char → Except Unit (List Char × List (List Char)))
    (raw : List Char) : List Char × List (List Char) :=
  match core raw with
  | .ok r => r
  | .error _ => (raw, [])

/-- Local-part class of the email-extraction regex. -/
def isLocalChar (c : Char) : Bool :=
  (('A' ≤ c && c ≤ 'Z') || ('a' ≤ c && c ≤ 'z') || ('0' ≤ c && c ≤ '9')
    || c = '.' || c = '_' || c = '%' || c = '+' || c = '-')

/-- Domain class of the email-extraction regex. -/
def isDomChar (c : Char) : Bool :=
  (('A' ≤ c && c ≤ 'Z') || ('a' ≤ c && c ≤ 'z') || ('0' ≤ c && c ≤ '9')
    || c = '.' || c = '-')

/-- Top-level-domain class of the email-extraction regex. -/
def isTldChar (c : Char) : Bool :=
  ('A' ≤ c && c ≤ 'Z') || ('a' ≤ c && c ≤ 'z')

/-- Backtracking over the greedy domain run: the engine takes the run
at its longest and shortens it until a dot followed by at least two
letters fits. -/
def tryDomK : Nat → List Char → Option (List Char × List Char)
  | 0, _ => none
  | k + 1, r2 =>
    match r2.drop (k + 1) with
    | '.' :: r3 =>
      let tld := r3.takeWhile isTldChar
      if 2 ≤ tld.length then some (r2.take (k + 1) ++ '.' :: tld, r3.drop tld.length)
      else tryDomK k r2
    | _ => tryDomK k r2

/-- Attempted email match anchored at the current position: a nonempty
local run, an at sign, then the domain backtracking.  Returns the
match and the remaining input after it. -/
def matchEmailAt (cs : List Char) : Option (List Char × List Char) :=
  let loc := cs.takeWhile isLocalChar
  if loc.isEmpty then none
  else
    match cs.drop loc.length with
    | '@' :: r2 =>
      match tryDomK (r2.takeWhile isDomChar).length r2 with
      | some (dom, rest) => some (loc ++ '@' :: dom, rest)
      | none => none
    | _ => none

/-- Global scan of the email regex: leftmost matches, non-overlapping,
resuming after each match.  The fuel argument bounds the recursion and
is always at least the input length. -/
def scanEmails : Nat → List Char → List (List Char)
  | 0, _ => []
  | _ + 1, [] => []
  | fuel + 1, c :: rest =>
    match matchEmailAt (c :: rest) with
    | some (e, after) => e :: scanEmails fuel after
    | none => scanEmails fuel rest

/-- The email-extraction fallback of the finalize route: all matches of
the address pattern in the aggregated text. -/
def extractEmails (s : String) : List String :=
  (scanEmails s.toList.length s.toList).map String.mk

/-- One candidate storage root of the transcript search: its directory
path, its listing when the directory exists and is readable, and the
per-file read outcome. -/
structure StoreRoot where
  dir : String
  listing : Option (List String)
  content : String → Option String

/-- Transcript file name for a room and owner. -/
def tfName (room owner : String) : String :=
  "transcript-" ++ room ++ "-" ++ owner ++ ".txt"

/-- Stem that transcript file names of a room start with. -/
def tfStem (room : String) : String :=
  "transcript-" ++ room ++ "-"

/-- Final path segment of a directory, as used by the concatenation
headers. -/
def basenameOf (p : String) : String :=
  String.mk ((p.toList.reverse.takeWhile (fun c => c ≠ '/')).reverse)

/-- Header written in front of each concatenated transcript file,
naming the file and the basename of its root. -/
def headerFor (f dir : String) : String :=
  "\n--- " ++ f ++ " (from " ++ basenameOf dir ++ ") ---\n"

/-- Test that one string starts with another, on the character
representation. -/
def strStartsWith (p s : String) : Bool :=
  List.isPrefixOf p.toList s.toList

/-- Files of one root that match the request: the exact per-owner file
when a user id is given, otherwise every file with the room stem. -/
def findIn (r : StoreRoot) (room : String) (uid : Option String) : List String :=
  match r.listing with
  | none => []
  | some files =>
    match uid with
    | some owner => if files.contains (tfName room owner) then [tfName room owner] else []
    | none => files.filter (fun f => strStartsWith (tfStem room) f)

/-- Concatenation of the matched files of one root: readable files
contribute a header plus their contents and their path; unreadable
files are skipped. -/
def renderRoot (r : StoreRoot) (found : List String) : String × List String :=
  (found.foldl (fun acc f =>
      match r.content f with
      | some t => acc ++ headerFor f r.dir ++ t
      | none => acc) "",
   found.filterMap (fun f => (r.content f).map (fun _ => r.dir ++ "/" ++ f)))

/-- Transcript aggregation of the finalize route: walk the candidate
roots in priority order and stop at the first root that yields at
least one matching file. -/
def aggregate : List StoreRoot → String → Option String → String × List String
  | [], _, _ => ("", [])
  | r :: rest, room, uid =>
    let found := findIn r room uid
    if found.isEmpty then aggregate rest room uid
    else renderRoot r found

/-- Environment of the delivery phase of the finalize route.  The
registry field is the participant list of a successful registry fetch,
or none when the fetch failed or returned a non-success status. -/
structure DeliverEnv where
  email : Option String
  summary : Option String
  resendKey : Bool
  backendBase : Option String
  registryParticipants : Option (List String)
  fullText : String
  sendOk : String → Bool

/-- Delivery phase of the finalize route: attempted sends with their
outcomes, and whether the transcript cleanup fires.  Mirrors the three
branches of the source: explicit recipient, registry participants, and
the extraction fallback, the last only when no backend base is
configured. -/
def deliver (d : DeliverEnv) : List (String × Bool) × Bool :=
  match d.email, d.summary, d.resendKey with
  | some e, some _, true =>
    let ok := d.sendOk e
    ([(e, ok)], ok)
  | none, some _, true =>
    match d.backendBase with
    | some _ =>
      match d.registryParticipants with
      | some ps =>
        if ps.isEmpty then ([], false)
        else
          let atts := ps.map (fun a => (a, d.sendOk a))
          (atts, atts.all (fun p => p.2))
      | none => ([], false)
    | none =>
      let uniq := dedupFirst (extractEmails d.fullText)
      if uniq.isEmpty then ([], false)
      else
        let atts := uniq.map (fun a => (a, d.sendOk a))
        (atts, atts.all (fun p => p.2))
  | _, _, _ => ([], false)

/-- Environment of a finalize request.  The summary is the outcome of
the summarization step, whose provider is an external collaborator. -/
structure FinalizeEnv where
  roots : List StoreRoot
  room : String
  userId : Option String
  email : Option String
  summary : Option String
  resendKey : Bool
  backendBase : Option String
  registryParticipants : Option (List String)
  sendOk : String → Bool

/-- Observable outcome of a finalize request: the HTTP response fields
and the file effects of the cleanup step. -/
structure FinalizeOutcome where
  status : Nat
  success : Bool
  fullText : String
  normalizedTranscript : String
  participants : List String
  attempts : List (String × Bool)
  deletedTranscripts : List String
  remainingTranscripts : List String

/-- Delivery environment a finalize request passes to its delivery
phase. -/
def deliverEnvOf (env : FinalizeEnv) (fullText : String) : DeliverEnv :=
  { email := env.email, summary := env.summary, resendKey := env.resendKey,
    backendBase := env.backendBase, registryParticipants := env.registryParticipants,
    fullText := fullText, sendOk := env.sendOk }

/-- The finalize route: aggregate, normalize, deliver, and always
answer success once the handler runs to the response line.  Transcript
files are unlinked exactly when the delivery phase decides cleanup. -/
def finalizeRoute (env : FinalizeEnv) : FinalizeOutcome :=
  let agg := aggregate env.roots env.room env.userId
  let norm := normalizeText agg.1
  let del := deliver (deliverEnvOf env agg.1)
  { status := 200, success := true, fullText := agg.1,
    normalizedTranscript := norm.1, participants := norm.2,
    attempts := del.1,
    deletedTranscripts := if del.2 then agg.2 else [],
    remainingTranscripts := if del.2 then [] else agg.2 }

/-- Outcome of one submission of the audio to the speech-to-text
provider: a parsed success, a non-success HTTP response with its body
text, or a transport-level exception. -/
inductive GroqOutcome where
  | success (transcript : String)
  | httpFail (status : Nat) (body : String)
  | netError (msg : String)
deriving DecidableEq

/-- File handed to the provider on a submission: the original input,
the pre-transcoded wav copy, or the wav copy transcoded from the
original for the retry. -/
inductive SendFile where
  | original
  | preWav
  | retryWav
deriving DecidableEq

/-- Environment of a transcribeBuffer call.  The outcomes function
gives the provider response of the n-th submission; the transcode
flags fold together tool availability and conversion success. -/
structure TranscribeEnv where
  groqKey : Bool
  ext : String
  shouldTranscode : Bool
  preTranscodeOk : Bool
  retryTranscodeOk : Bool
  outcomes : Nat → GroqOutcome

/-- Result record of a successful transcribeBuffer call. -/
structure TranscribeResult where
  transcript : String
  retried : Bool
  transcoded : Bool
deriving DecidableEq

/-- Case-insensitive lowering of a character list. -/
def lowerChars (l : List Char) : List Char :=
  l.map Char.toLower

/-- Substring test used for the unprocessable-media signal. -/
def containsSub (pat : List Char) : List Char → Bool
  | [] => pat.isEmpty
  | c :: rest => List.isPrefixOf pat (c :: rest) || containsSub pat rest

/-- The unprocessable-media signal: the failure body mentions either of
the two provider phrases, case-insensitively. -/
def isCouldNotProcess (body : String) : Bool :=
  containsSub (String.toList "could not process file") (lowerChars body.toList)
    || containsSub (String.toList "is it a valid media file") (lowerChars body.toList)

/-- State after the optional configuration-gated pre-transcode: the
temporary wav recorded so far and the file of the first submission.  A
failed pre-transcode falls back to the original. -/
def preState (env : TranscribeEnv) : Option SendFile × SendFile :=
  if env.shouldTranscode && (env.ext = ".webm" || env.ext = ".ogg" || env.ext = ".opus") then
    if env.preTranscodeOk then (some .preWav, .preWav) else (none, .original)
  else (none, .original)

/-- Whether the file of a submission has a wav extension, as the
transcoded response flag computes it. -/
def isWavSend (env : TranscribeEnv) : SendFile → Bool
  | .original => env.ext = ".wav"
  | .preWav => true
  | .retryWav => true

/-- Second and last loop iteration of transcribeBuffer.  A matching
failure here with no transcode attempted schedules a transcode and
leaves the loop, which then reports the terminal retries-exhausted
error; every other failure propagates. -/
def secondAttempt (env : TranscribeEnv) (attempted : Bool) (tempWav : Option SendFile)
    (send : SendFile) : Except String TranscribeResult :=
  match env.outcomes 1 with
  | .success t => .ok ⟨t, attempted, tempWav.isSome && isWavSend env send⟩
  | .httpFail st body =>
    if isCouldNotProcess body && !attempted then
      if env.retryTranscodeOk then .error "Transcription failed after retries"
      else .error ("Groq transcription failed and transcode retry failed: " ++ body)
    else .error ("Groq transcription failed: " ++ toString st ++ " " ++ body)
  | .netError m => .error m

/-- The transcribeBuffer protocol, returning the call result together
with the trace of files submitted to the provider.  The first
iteration handles the three outcome shapes: success returns; a failure
matching the unprocessable-media signal transcodes the original to wav
and retries with it (or propagates when the transcode fails); any
other failure is swallowed by the catch of the loop and retried with
the same file. -/
def transcribeModel (env : TranscribeEnv) :
    Except String TranscribeResult × List SendFile :=
  if !env.groqKey then (.error "GROQ_API_KEY not configured", [])
  else
    let st := preState env
    match env.outcomes 0 with
    | .success t => (.ok ⟨t, false, st.1.isSome && isWavSend env st.2⟩, [st.2])
    | .httpFail _ body =>
      if isCouldNotProcess body then
        if env.retryTranscodeOk then
          (secondAttempt env true (some .retryWav) .retryWav, [st.2, .retryWav])
        else (.error ("Groq transcription failed and transcode retry failed: " ++ body), [st.2])
      else (secondAttempt env false st.1 st.2, [st.2, st.2])
    | .netError _ => (secondAttempt env false st.1 st.2, [st.2, st.2])

/-- File-system actions of the chunk-ingestion route that touch the
audio file or the transcript store. -/
inductive FileAction where
  | writeTmp
  | appendTranscript
  | unlinkTmp
deriving DecidableEq

/-- Environment of a chunk-ingestion request.  The transcribe field is
the outcome of the transcribeBuffer call; the summary and send fields
abstract the optional summarization and email steps, which touch no
transcript file. -/
structure ChunkEnv where
  body : Option (List Nat)
  writeOk : Bool
  transcribe : Except String TranscribeResult
  appendOk : Bool
  deepseekSummary : Option String
  email : Option String
  resendKey : Bool
  sendOk : Bool

/-- Response of the chunk-ingestion route together with its recorded
file actions. -/
structure ChunkResponse where
  status : Nat
  success : Bool
  actions : List FileAction
deriving DecidableEq

/-- The transcribe-chunk route: reject absent or undersized bodies with
a client error before any write; otherwise write the temporary file,
transcribe, append best-effort, and unlink the temporary file before
responding.  A transcription failure escapes to the error handler, so
the unlink line is never reached on that path. -/
def transcribeChunk (env : ChunkEnv) : ChunkResponse :=
  match env.body with
  | none => ⟨400, false, []⟩
  | some buf =>
    if buf.length < 4000 then ⟨400, false, []⟩
    else if !env.writeOk then ⟨500, false, []⟩
    else
      match env.transcribe with
      | .error _ => ⟨500, false, [.writeTmp]⟩
      | .ok _ =>
        let acts := [FileAction.writeTmp]
          ++ (if env.appendOk then [FileAction.appendTranscript] else [])
        ⟨200, true, acts ++ [FileAction.unlinkTmp]⟩

/-- One transcript entry as the chunk-ingestion append writes it:
bracketed ISO timestamp, speaker identifier, text. -/
structure TLine where
  iso : String
  who : String
  text : String

/-- Character rendering of an appended transcript entry, following the
template of the append line. -/
def tlineChars (e : TLine) : List Char :=
  '[' :: (e.iso.toList ++ (']' :: ' ' :: (e.who.toList ++ (':' :: ' ' :: e.text.toList))))

/-- A transcript file consisting only of appended entries, each
terminated by the newline the append writes. -/
def appendedChars (es : List TLine) : List Char :=
  (es.map (fun e => tlineChars e ++ ['\n'])).flatten

/-
Claim theorems.  Each claim of the specification is settled by one
theorem below; counterexamples are closed evaluations of the embedded
code at explicit inputs.
-/

/-- C5: the claim states the unknown-speaker marker as the literal line
text containing the word Unknown; the code writes the Spanish marker
instead, so the stated output line is not the one produced. -/
theorem C5_counterexample :
    (normalizeText "buenas tardes").1 ≠ "[Unknown]: buenas tardes" := by
  decide

/-- C5 (amended): the normalizer maps the chat-marked line to the
trimmed name-message rewrite with the name recorded once, and maps a
line matching neither pattern to an unknown-speaker line carrying the
Spanish marker of the code, with no participant added. -/
theorem C5_normalizer_examples :
    normalizeText "(chat) Ana: hola a todos" = ("Ana: hola a todos", ["Ana"])
      ∧ normalizeText "buenas tardes" = ("[Desconocido]: buenas tardes", []) := by
  decide

/-- C6: an absent or undersized chunk body is rejected with a client
error and no file action at all is performed. -/
theorem C6_small_chunk_rejected (env : ChunkEnv)
    (h : env.body = none ∨ ∃ b, env.body = some b ∧ b.length < 4000) :
    transcribeChunk env = ⟨400, false, []⟩ := by
  rcases h with h | ⟨b, hb, hlen⟩
  · simp [transcribeChunk, h]
  · simp [transcribeChunk, hb, hlen]

/-- C6 witness: a ten-byte body is rejected without any write. -/
theorem C6_small_chunk_rejected_witness :
    transcribeChunk ⟨some [0, 1, 2], true, .ok ⟨"t", false, false⟩, true, none, none, false, false⟩
      = ⟨400, false, []⟩ :=
  C6_small_chunk_rejected _ (Or.inr ⟨[0, 1, 2], rfl, by decide⟩)

/-- C7: the normalization step is guarded by a catch whose fallback
returns the raw text with an empty participant set whenever the
transform core fails, and the real transform core, being a total
function of the embedding, always proceeds with its computed result. -/
theorem C7_normalizer_never_raises
    (core : List Char → Except Unit (List Char × List (List Char))) (raw : List Char) :
    (core raw = .error () → normalizeGuarded core raw = (raw, []))
      ∧ normalizeGuarded (fun l => .ok (normalizeChars l)) raw = normalizeChars raw := by
  constructor
  · intro h
    simp [normalizeGuarded, h]
  · rfl

/-- C7 witness: a failing transform core falls back to the raw text and
an empty participant set. -/
theorem C7_normalizer_never_raises_witness :
    normalizeGuarded (fun _ => .error ()) (String.toList "hola") = (String.toList "hola", []) :=
  (C7_normalizer_never_raises (fun _ => .error ()) (String.toList "hola")).1 rfl

/-- C8: once a summary is present, the finalize response is the success
response with status 200, whatever the delivery outcomes are. -/
theorem C8_finalize_reports_success (env : FinalizeEnv) (s : String)
    (_h : env.summary = some s) :
    (finalizeRoute env).status = 200 ∧ (finalizeRoute env).success = true := by
  constructor <;> rfl

/-- C8 witness: with a computed summary and a recipient whose delivery
fails, the finalize response still reports success. -/
theorem C8_finalize_reports_success_witness :
    (finalizeRoute ⟨[], "r", none, some "a@b.co", some "S", true, none, none, fun _ => false⟩).status = 200
      ∧ (finalizeRoute ⟨[], "r", none, some "a@b.co", some "S", true, none, none, fun _ => false⟩).success = true :=
  C8_finalize_reports_success ⟨[], "r", none, some "a@b.co", some "S", true, none, none, fun _ => false⟩ "S" rfl

/-- Chunk environment of the C9 counterexample: a well-sized body whose
transcription fails. -/
def chunkFailEnv : ChunkEnv :=
  ⟨some (List.replicate 4000 0), true, .error "Groq transcription failed: 500 err", true,
    none, none, false, false⟩

/-- C9: when transcription fails, the handler answers through the error
path without reaching the unlink line, so the temporary audio file is
written but never deleted, contradicting deletion on both paths. -/
theorem C9_counterexample :
    (transcribeChunk chunkFailEnv).actions = [FileAction.writeTmp]
      ∧ FileAction.unlinkTmp ∉ (transcribeChunk chunkFailEnv).actions := by
  have h : transcribeChunk chunkFailEnv = ⟨500, false, [FileAction.writeTmp]⟩ := by
    simp only [transcribeChunk, chunkFailEnv, List.length_replicate]
    norm_num
  rw [h]
  exact ⟨rfl, by decide⟩

/-- C9 (amended): for every accepted chunk the temporary file is
deleted after a successful transcription, also when the later append,
summary or email steps fail; when the transcription itself fails, the
handler responds with a server error and the temporary file remains. -/
theorem C9_tmpfile_cleanup (env : ChunkEnv) (b : List Nat)
    (hb : env.body = some b) (hlen : 4000 ≤ b.length) (hw : env.writeOk = true) :
    ((∃ r, env.transcribe = .ok r) → FileAction.unlinkTmp ∈ (transcribeChunk env).actions)
      ∧ (∀ e, env.transcribe = .error e →
          (transcribeChunk env).actions = [FileAction.writeTmp]) := by
  have hlt : ¬ b.length < 4000 := by omega
  constructor
  · rintro ⟨r, hr⟩
    simp [transcribeChunk, hb, hw, hr, hlt]
  · intro e he
    simp [transcribeChunk, hb, hw, he, hlt]

/-- C9 witness: a successful transcription leads to the unlink of the
temporary file within the same request. -/
theorem C9_tmpfile_cleanup_witness :
    FileAction.unlinkTmp ∈ (transcribeChunk ⟨some (List.replicate 4000 0), true,
      .ok ⟨"t", false, false⟩, true, none, none, false, false⟩).actions :=
  (C9_tmpfile_cleanup _ (List.replicate 4000 0) rfl (by rw [List.length_replicate]) rfl).1
    ⟨⟨"t", false, false⟩, rfl⟩

/-- Shape of the cleanup decision: the delivery phase either decides no
cleanup, or its decision is exactly the conjunction of the outcomes of
its attempted sends. -/
theorem deliver_snd_shape (d : DeliverEnv) :
    (deliver d).2 = false ∨ (deliver d).2 = (deliver d).1.all (fun p => p.2) := by
  obtain ⟨em, sm, rk, bb, rp, ft, so⟩ := d
  cases em with
  | none =>
    cases sm with
    | none => left; rfl
    | some s =>
      cases rk with
      | false => left; rfl
      | true =>
        cases bb with
        | none =>
          simp only [deliver]
          split
          · left; rfl
          · right
            simp
        | some b =>
          cases rp with
          | none => left; rfl
          | some ps =>
            simp only [deliver]
            split
            · left; rfl
            · right
              simp
  | some e =>
    cases sm with
    | none => left; rfl
    | some s =>
      cases rk with
      | false => left; rfl
      | true =>
        right
        simp [deliver]

/-- Cleanup decision of the delivery phase: cleanup fires only when
every attempted send reported success, and a failed attempt forces the
decision to false. -/
theorem deliver_cleanup_all (d : DeliverEnv) :
    ((deliver d).2 = true → (deliver d).1.all (fun p => p.2) = true)
      ∧ ((deliver d).1.all (fun p => p.2) = false → (deliver d).2 = false) := by
  rcases deliver_snd_shape d with h | h
  · constructor
    · intro h2
      rw [h] at h2
      cases h2
    · intro _
      exact h
  · constructor
    · intro h2
      rw [← h]
      exact h2
    · intro h2
      rw [h, h2]

/-- C2: matched transcript files are deleted only when every delivery
attempted in the active tier succeeded, and any failed attempt leaves
every matched file in place for a later finalize. -/
theorem C2_delete_only_if_all_sent (env : FinalizeEnv) :
    ((finalizeRoute env).deletedTranscripts ≠ [] →
        (finalizeRoute env).attempts.all (fun p => p.2) = true)
      ∧ ((finalizeRoute env).attempts.all (fun p => p.2) = false →
          (finalizeRoute env).deletedTranscripts = []
            ∧ (finalizeRoute env).remainingTranscripts
                = (aggregate env.roots env.room env.userId).2) := by
  have hd := deliver_cleanup_all
    (deliverEnvOf env (aggregate env.roots env.room env.userId).1)
  have hatt : (finalizeRoute env).attempts
      = (deliver (deliverEnvOf env (aggregate env.roots env.room env.userId).1)).1 := rfl
  have hdel : (finalizeRoute env).deletedTranscripts
      = (if (deliver (deliverEnvOf env (aggregate env.roots env.room env.userId).1)).2
          then (aggregate env.roots env.room env.userId).2 else []) := rfl
  have hrem : (finalizeRoute env).remainingTranscripts
      = (if (deliver (deliverEnvOf env (aggregate env.roots env.room env.userId).1)).2
          then [] else (aggregate env.roots env.room env.userId).2) := rfl
  constructor
  · intro hne
    rw [hatt]
    apply hd.1
    cases h2 : (deliver (deliverEnvOf env (aggregate env.roots env.room env.userId).1)).2
    · exfalso
      apply hne
      rw [hdel, h2]
      rfl
    · rfl
  · intro hall
    rw [hatt] at hall
    have h2 := hd.2 hall
    constructor
    · rw [hdel, h2]
      rfl
    · rw [hrem, h2]
      rfl

/-- Finalize environment of the C2 witness: one matched transcript
file, an explicit recipient, and a delivery that succeeds. -/
def finOkEnv : FinalizeEnv :=
  ⟨[⟨"/app/tmp/transcripts", some ["transcript-r-u.txt"], fun _ => some "hola"⟩],
    "r", none, some "a@b.co", some "S", true, none, none, fun _ => true⟩

/-- C2 witness: at an input whose cleanup fires, every attempted
delivery indeed reported success. -/
theorem C2_delete_only_if_all_sent_witness :
    (finalizeRoute finOkEnv).attempts.all (fun p => p.2) = true :=
  (C2_delete_only_if_all_sent finOkEnv).1 (by decide)

/-- Delivery environment of the C3 counterexample: a configured
registry that yields an empty participant list, while the transcript
text contains an extractable address. -/
def regEmptyEnv : DeliverEnv :=
  ⟨none, some "S", true, some "http://backend", some [], "contact me at x@y.com", fun _ => true⟩

/-- C3: when the configured registry yields an empty participant list
the code does not fall back to extraction; no delivery is attempted,
although an address is extractable from the transcript text. -/
theorem C3_counterexample :
    (deliver regEmptyEnv).1 = [] ∧ extractEmails regEmptyEnv.fullText = ["x@y.com"] := by
  decide

/-- C3 (amended): with no explicit email, the extraction fallback runs
exactly when no registry endpoint is configured, delivering to the
deduplicated pattern-extracted addresses; an empty participant list
from a configured registry yields no delivery at all. -/
theorem C3_fallback_only_without_backend (d : DeliverEnv) (s : String)
    (he : d.email = none) (hs : d.summary = some s) (hk : d.resendKey = true) :
    (d.backendBase = none →
        (deliver d).1.map Prod.fst = dedupFirst (extractEmails d.fullText))
      ∧ (∀ b, d.backendBase = some b → d.registryParticipants = some [] →
          (deliver d).1 = []) := by
  obtain ⟨em, sm, rk, bb, rp, ft, so⟩ := d
  simp only at he hs hk
  subst he hk
  cases sm with
  | none => cases hs
  | some s2 =>
    constructor
    · intro hb
      simp only at hb
      subst hb
      simp only [deliver]
      split
      · rename_i hsplit
        rw [List.isEmpty_iff] at hsplit
        simp [hsplit]
      · rw [List.map_map]
        have hcongr : ∀ a ∈ dedupFirst (extractEmails ft),
            (Prod.fst ∘ fun a => (a, so a)) a = id a := fun a _ => rfl
        rw [List.map_congr_left hcongr, List.map_id]
    · intro b hb hr
      simp only at hb hr
      subst hb hr
      simp [deliver]

/-- Delivery environment of the C3 witness: no registry endpoint
configured, one address present in the transcript text twice. -/
def noBackendEnv : DeliverEnv :=
  ⟨none, some "S", true, none, none, "write x@y.com or x@y.com", fun _ => true⟩

/-- C3 witness: without a registry endpoint, delivery goes to the
deduplicated addresses extracted from the transcript text. -/
theorem C3_fallback_only_without_backend_witness :
    (deliver noBackendEnv).1.map Prod.fst = ["x@y.com"] := by
  have h := (C3_fallback_only_without_backend noBackendEnv "S" rfl rfl rfl).1 rfl
  rw [h]
  decide

/-- C4: aggregation stops at the first root yielding a match, so later
roots never contribute, and each concatenated file is prefixed by the
header naming the file and the basename of its root. -/
theorem C4_first_match_wins (r : StoreRoot) (rest : List StoreRoot) (room : String)
    (uid : Option String) (h : findIn r room uid ≠ []) (d f t room2 : String)
    (hf : strStartsWith (tfStem room2) f = true) :
    aggregate (r :: rest) room uid = aggregate [r] room uid
      ∧ aggregate [⟨d, some [f], fun _ => some t⟩] room2 none
          = (headerFor f d ++ t, [d ++ "/" ++ f]) := by
  constructor
  · have hne : (findIn r room uid).isEmpty = false := by
      rw [List.isEmpty_eq_false]
      exact h
    simp [aggregate, hne]
  · have hfind : findIn ⟨d, some [f], fun _ => some t⟩ room2 none = [f] := by
      simp [findIn, hf]
    simp only [aggregate, hfind]
    rfl

/-- First storage root of the C4 witness. -/
def rootA : StoreRoot :=
  ⟨"/a/tmp/transcripts", some ["transcript-r1-u1.txt"], fun _ => some "AAA"⟩

/-- Second storage root of the C4 witness, also matching the room. -/
def rootB : StoreRoot :=
  ⟨"/b/tmp/transcripts", some ["transcript-r1-u2.txt"], fun _ => some "BBB"⟩

/-- C4 witness: with both roots matching, the result equals the result
of the first root alone, and the single-file aggregation carries the
header naming file and root. -/
theorem C4_first_match_wins_witness :
    aggregate [rootA, rootB] "r1" none = aggregate [rootA] "r1" none
      ∧ aggregate [⟨"/d/roots", some ["transcript-r2-w.txt"], fun _ => some "T"⟩] "r2" none
          = (headerFor "transcript-r2-w.txt" "/d/roots" ++ "T",
             ["/d/roots" ++ "/" ++ "transcript-r2-w.txt"]) :=
  C4_first_match_wins rootA [rootB] "r1" none (by decide) "/d/roots"
    "transcript-r2-w.txt" "T" "r2" (by decide)

/-- Transcription environment of the C1 counterexample: the first
submission fails with a body that does not carry the
unprocessable-media signal. -/
def plainFailEnv : TranscribeEnv :=
  ⟨true, ".webm", false, true, true,
    fun n => if n = 0 then .httpFail 500 "internal server error" else .success "ok"⟩

/-- C1: the code retries after any first-attempt failure, not only
after the unprocessable-media signal: at this input the first response
is a failure whose body does not match the signal, yet the audio is
submitted a second time. -/
theorem C1_counterexample :
    (transcribeModel plainFailEnv).2.length = 2
      ∧ plainFailEnv.outcomes 0 = .httpFail 500 "internal server error"
      ∧ isCouldNotProcess "internal server error" = false := by
  refine ⟨rfl, rfl, ?_⟩
  decide

/-- C1 (amended): the audio is submitted at most twice per call; a
second submission happens only when the first attempt did not succeed;
when the first response is a failure matching the unprocessable-media
signal and the transcode succeeds, the single retry sends the wav
transcoded from the original input; for any other first-attempt
failure the retry resends the very same file untranscoded; a retry
never happens a second time within the same call. -/
theorem C1_retry_protocol (env : TranscribeEnv) (hk : env.groqKey = true) :
    (transcribeModel env).2.length ≤ 2
      ∧ ((transcribeModel env).2.length = 2 → ∀ t, env.outcomes 0 ≠ .success t)
      ∧ (∀ st body, env.outcomes 0 = .httpFail st body → isCouldNotProcess body = true →
          env.retryTranscodeOk = true →
          (transcribeModel env).2 = [(preState env).2, SendFile.retryWav])
      ∧ (∀ st body, env.outcomes 0 = .httpFail st body → isCouldNotProcess body = false →
          (transcribeModel env).2 = [(preState env).2, (preState env).2]) := by
  cases h0 : env.outcomes 0 with
  | success t =>
    refine ⟨?_, ?_, ?_, ?_⟩
    · simp [transcribeModel, hk, h0]
    · intro hlen
      simp [transcribeModel, hk, h0] at hlen
    · intro st body hfail
      cases hfail
    · intro st body hfail
      cases hfail
  | httpFail st0 body0 =>
    refine ⟨?_, ?_, ?_, ?_⟩
    · by_cases hm : isCouldNotProcess body0 = true
      · by_cases hr : env.retryTranscodeOk = true
        · simp [transcribeModel, hk, h0, hm, hr]
        · simp [transcribeModel, hk, h0, hm, hr]
      · simp only [Bool.not_eq_true] at hm
        simp [transcribeModel, hk, h0, hm]
    · intro _ t hcontra
      cases hcontra
    · intro st body hfail hm hr
      cases hfail
      simp [transcribeModel, hk, h0, hm, hr]
    · intro st body hfail hm
      cases hfail
      simp [transcribeModel, hk, h0, hm]
  | netError m =>
    refine ⟨?_, ?_, ?_, ?_⟩
    · simp [transcribeModel, hk, h0]
    · intro _ t hcontra
      cases hcontra
    · intro st body hfail
      cases hfail
    · intro st body hfail
      cases hfail

/-- Transcription environment of the C1 witness: a first failure
carrying the unprocessable-media signal. -/
def signalFailEnv : TranscribeEnv :=
  ⟨true, ".webm", false, true, true,
    fun n => if n = 0 then .httpFail 400 "Could not process file, is it a valid media file?"
      else .success "ok"⟩

/-- C1 witness: on a matching first failure, the trace is the original
followed by the retry wav transcoded from the original. -/
theorem C1_retry_protocol_witness :
    (transcribeModel signalFailEnv).2 = [SendFile.original, SendFile.retryWav] :=
  (C1_retry_protocol signalFailEnv rfl).2.2.1 400
    "Could not process file, is it a valid media file?" rfl (by decide) rfl

/-- Splitting a terminator-free line followed by a newline cuts exactly
at that newline. -/
theorem splitLines_line (l rest : List Char) (h : l.all isDotChar = true) :
    splitLines (l ++ '\n' :: rest) = l :: splitLines rest := by
  induction l with
  | nil => rfl
  | cons c l ih =>
    rw [List.all_cons, Bool.and_eq_true] at h
    have hc := h.1
    have hcn : c ≠ '\n' := by
      intro heq
      subst heq
      simp [isDotChar] at hc
    have hcr : c ≠ '\r' := by
      intro heq
      subst heq
      simp [isDotChar] at hc
    have hl := ih h.2
    rw [List.cons_append, splitLines.eq_def]
    split
    · simp_all
    · simp_all
    · simp_all
    · rename_i c2 rest2 h1
      injection h1 with hc hrest
      subst hc
      subst hrest
      rw [hl]

/-- Splitting a transcript made only of appended entries yields exactly
the entry lines, plus the empty tail after the final newline. -/
theorem splitLines_appended (es : List TLine)
    (h : ∀ e ∈ es, (tlineChars e).all isDotChar = true) :
    splitLines (appendedChars es) = es.map tlineChars ++ [[]] := by
  induction es with
  | nil => rfl
  | cons e es ih =>
    have h1 := h e (List.mem_cons_self e es)
    have h2 : ∀ x ∈ es, (tlineChars x).all isDotChar = true :=
      fun x hx => h x (List.mem_cons_of_mem e hx)
    show splitLines ((tlineChars e ++ ['\n']) ++ appendedChars es) = _
    rw [List.append_assoc, List.singleton_append, splitLines_line _ _ h1, ih h2]
    rfl

/-- Dropping a prefix from a list whose last element fails the
predicate keeps that last element in place. -/
theorem dropWhile_append_last {p : Char → Bool} {a : Char} (ha : p a = false)
    (ys : List Char) : ∃ zs, List.dropWhile p (ys ++ [a]) = zs ++ [a] := by
  induction ys with
  | nil => exact ⟨[], by simp [List.dropWhile_cons, ha]⟩
  | cons y ys ih =>
    by_cases hy : p y = true
    · obtain ⟨zs, hzs⟩ := ih
      exact ⟨zs, by simp [List.dropWhile_cons, hy, hzs]⟩
    · rw [Bool.not_eq_true] at hy
      exact ⟨y :: ys, by simp [List.dropWhile_cons, hy]⟩

/-- Trimming keeps the leading opening bracket of an appended line. -/
theorem trim_lbracket (xs : List Char) : ∃ w, trimChars ('[' :: xs) = '[' :: w := by
  have hsp : isJsSpace '[' = false := by decide
  have h1 : List.dropWhile isJsSpace ('[' :: xs) = '[' :: xs := by
    simp [List.dropWhile_cons, hsp]
  rw [trimChars, h1, List.reverse_cons]
  obtain ⟨zs, hzs⟩ := dropWhile_append_last hsp xs.reverse
  rw [hzs, List.reverse_append]
  exact ⟨zs.reverse, by simp⟩

/-- The loose chat pattern cannot match a line that contains no chat
marker. -/
theorem chatLooseSearch_eq_none (l : List Char) (h : hasChatMarker l = false) :
    chatLooseSearch l = none := by
  induction l with
  | nil => rfl
  | cons c rest ih =>
    simp only [hasChatMarker, Bool.or_eq_false_iff] at h
    simp [chatLooseSearch, h.1, ih h.2]

/-- A line opening with a bracket and containing no chat marker is
rewritten as an unknown-speaker line with nothing recorded. -/
theorem normLine_lbracket (w : List Char) (h : hasChatMarker ('[' :: w) = false) :
    normLine ('[' :: w) = (unknownPref ++ ('[' :: w), none) := by
  have hhdr : headerTest ('[' :: w) = false := by
    simp [headerTest]
  have hchat : isChatAt ('[' :: w) = false := by
    have : lowEq '[' '(' = false := by decide
    simp [isChatAt, this]
  have hname : nameMatch ('[' :: w) = none := by
    have hnc : isNameChar '[' = false := by decide
    simp [nameMatch, hchat, tryNameFrom, List.takeWhile_cons, hnc, tryNameK]
  have hloose := chatLooseSearch_eq_none _ h
  simp [normLine, hhdr, hname, hloose]

/-- C10 (amended): for a transcript consisting only of lines written by
the chunk-ingestion append, provided no embedded identifier or text
smuggles in a line break or a chat marker, normalization rewrites every
line as an unknown-speaker line and recovers no participant: the
speaker id embedded at append time is lost. -/
theorem C10_appended_lines_unknown (es : List TLine)
    (hnl : ∀ e ∈ es, (tlineChars e).all isDotChar = true)
    (hcm : ∀ e ∈ es, hasChatMarker (trimChars (tlineChars e)) = false) :
    normalizeChars (appendedChars es)
      = (List.intercalate ['\n'] (es.map (fun e => unknownPref ++ trimChars (tlineChars e))),
         []) := by
  have hsplit := splitLines_appended es hnl
  have htl : ∀ e ∈ es, ∃ w, trimChars (tlineChars e) = '[' :: w :=
    fun e _ => trim_lbracket _
  have hkeep : ∀ a ∈ List.map (fun e => trimChars (tlineChars e)) es,
      (!a.isEmpty) = true := by
    intro a ha
    rw [List.mem_map] at ha
    obtain ⟨e, he, rfl⟩ := ha
    obtain ⟨w, hw⟩ := htl e he
    rw [hw]
    rfl
  have hraw : ((splitLines (appendedChars es)).map trimChars).filter (fun l => !l.isEmpty)
      = es.map (fun e => trimChars (tlineChars e)) := by
    rw [hsplit, List.map_append, List.filter_append]
    have h2 : (([[]] : List (List Char)).map trimChars).filter (fun l => !l.isEmpty) = [] := rfl
    rw [h2, List.append_nil, List.map_map]
    have hmm : List.map (trimChars ∘ tlineChars) es
        = List.map (fun e => trimChars (tlineChars e)) es := rfl
    rw [hmm]
    exact List.filter_eq_self.2 hkeep
  have hline : ∀ e ∈ es, normLine (trimChars (tlineChars e))
      = (unknownPref ++ trimChars (tlineChars e), none) := by
    intro e he
    obtain ⟨w, hw⟩ := htl e he
    rw [hw]
    exact normLine_lbracket w (hw ▸ hcm e he)
  have hnil : List.filterMap (fun l => (normLine l).2)
      (List.map (fun e => trimChars (tlineChars e)) es) = [] := by
    rw [List.filterMap_eq_nil_iff]
    intro a ha
    rw [List.mem_map] at ha
    obtain ⟨e, he, rfl⟩ := ha
    rw [hline e he]
  have hfst : List.map (fun l => (normLine l).1)
        (List.map (fun e => trimChars (tlineChars e)) es)
      = List.map (fun e => unknownPref ++ trimChars (tlineChars e)) es := by
    rw [List.map_map]
    apply List.map_congr_left
    intro e he
    show (normLine (trimChars (tlineChars e))).1 = _
    rw [hline e he]
  simp only [normalizeChars, hraw]
  rw [Prod.mk.injEq]
  constructor
  · rw [hfst]
  · rw [hnil]
    rfl

/-- Appended entry of the C10 counterexample: the transcribed text
itself contains a chat-marked name. -/
def chatTextEntry : TLine :=
  ⟨"2025-01-01T00:00:00.000Z", "u1", "(chat) Bob: hi"⟩

/-- C10: an appended line is not always rewritten as an unknown-speaker
line: when the transcribed text carries a chat marker, the loose
pattern matches inside the line, a participant is recovered and the
line is rewritten to the name-message pair. -/
theorem C10_counterexample :
    (normalizeChars (appendedChars [chatTextEntry])).2 = [String.toList "Bob"]
      ∧ (normalizeChars (appendedChars [chatTextEntry])).1 = String.toList "Bob: hi" := by
  constructor
  · decide
  · decide

/-- Appended entry of the C10 witness. -/
def plainTextEntry : TLine :=
  ⟨"2025-01-01T00:00:00.000Z", "u1", "hello there"⟩

/-- C10 witness: a plain appended line is rewritten as an
unknown-speaker line with no participant recovered. -/
theorem C10_appended_lines_unknown_witness :
    normalizeChars (appendedChars [plainTextEntry])
      = (List.intercalate ['\n']
          ([plainTextEntry].map (fun e => unknownPref ++ trimChars (tlineChars e))), []) :=
  C10_appended_lines_unknown [plainTextEntry] (by decide) (by decide)
